import Mathlib

/-!
Verification of the query-filter translation and pagination layer of the
SpaceX launches REST backend (`app/services/launch_service.py`,
`app/routers/launches.py`, `app/models/launch.py`).

Modelling conventions:
* A DynamoDB item is a record of optional attributes (`Item`); a missing
  attribute is `none`.
* Timestamps are represented by their canonical ISO-8601 strings.  The spec
  itself notes that lexicographic comparison of canonical ISO-8601 strings
  coincides with chronological comparison, and both the DynamoDB string
  comparisons (`between`/`gte`/`lte` on `launch_date`) and the Python
  `datetime` comparisons are modelled by lexicographic string order.
  `datetime.isoformat` is then the identity and `datetime.fromisoformat` is
  abstracted to a shape check on the `YYYY-MM-DD` date part, returning the
  canonical string itself on success.
* DynamoDB numbers that matter to the claims (`flight_number`) are modelled
  as `Int`; the recursive `Decimal`-to-`float` conversion of
  `_convert_decimals` is the identity under this representation.
* A DynamoDB `scan` examines the stored items in table order: with an
  `ExclusiveStartKey` it resumes strictly after the item carrying that key,
  it examines at most `Limit` raw items, evaluates the `FilterExpression`
  on the examined items only, and reports a `LastEvaluatedKey` exactly when
  it stopped because of the limit.
* Python's stable `list.sort` is modelled by a stable insertion sort
  (`isortB`); `sort(key=..., reverse=True)` flips the comparison while
  keeping stability, exactly as in CPython.
* Python truthiness tests on optional strings/ints (`if filters.x:`) are
  modelled by `truthyOptStr` / `truthyOptInt` (present and nonempty /
  nonzero); `datetime` values are always truthy, so date fields test
  presence only.
-/

/-! ## Generic list machinery: stable insertion sort -/

/-- Insert `x` in front of the first element `y` with `le x y = true`.
This is the insertion step of a stable insertion sort. -/
def insertBy (le : α → α → Bool) (x : α) : List α → List α
  | [] => [x]
  | y :: ys => if le x y then x :: y :: ys else y :: insertBy le x ys

/-- Stable insertion sort by a boolean comparison, modelling Python's stable
`list.sort`. -/
def isortB (le : α → α → Bool) : List α → List α
  | [] => []
  | x :: xs => insertBy le x (isortB le xs)

theorem perm_insertBy (le : α → α → Bool) (x : α) :
    ∀ l : List α, (insertBy le x l).Perm (x :: l)
  | [] => List.Perm.refl _
  | y :: ys => by
    unfold insertBy
    by_cases h : le x y = true
    · simp [h]
    · simp only [h, if_neg]
      exact ((perm_insertBy le x ys).cons y).trans (List.Perm.swap x y ys)

theorem perm_isortB (le : α → α → Bool) : ∀ l : List α, (isortB le l).Perm l
  | [] => List.Perm.refl _
  | x :: xs => by
    unfold isortB
    exact (perm_insertBy le x (isortB le xs)).trans ((perm_isortB le xs).cons x)

theorem mem_isortB (le : α → α → Bool) (l : List α) (a : α) :
    a ∈ isortB le l ↔ a ∈ l :=
  (perm_isortB le l).mem_iff

theorem mem_insertBy (le : α → α → Bool) (x : α) (l : List α) (a : α) :
    a ∈ insertBy le x l ↔ a = x ∨ a ∈ l := by
  rw [(perm_insertBy le x l).mem_iff]
  simp

theorem pairwise_insertBy (le : α → α → Bool)
    (htot : ∀ a b, le a b = false → le b a = true)
    (htrans : ∀ a b c, le a b = true → le b c = true → le a c = true)
    (x : α) :
    ∀ l : List α, List.Pairwise (fun a b => le a b = true) l →
      List.Pairwise (fun a b => le a b = true) (insertBy le x l)
  | [], _ => by simp [insertBy]
  | y :: ys, h => by
    unfold insertBy
    by_cases hxy : le x y = true
    · rw [if_pos hxy]
      refine List.Pairwise.cons ?_ h
      intro z hz
      rcases List.mem_cons.1 hz with rfl | hz
      · exact hxy
      · exact htrans x y z hxy (List.rel_of_pairwise_cons h hz)
    · rw [if_neg hxy]
      refine List.Pairwise.cons ?_ (pairwise_insertBy le htot htrans x ys h.tail)
      intro z hz
      rcases (mem_insertBy le x ys z).1 hz with hz | hz
      · rw [hz]
        exact htot x y (Bool.eq_false_iff.mpr hxy)
      · exact List.rel_of_pairwise_cons h hz

theorem pairwise_isortB (le : α → α → Bool)
    (htot : ∀ a b, le a b = false → le b a = true)
    (htrans : ∀ a b c, le a b = true → le b c = true → le a c = true) :
    ∀ l : List α, List.Pairwise (fun a b => le a b = true) (isortB le l)
  | [] => by simp [isortB]
  | x :: xs =>
    pairwise_insertBy le htot htrans x (isortB le xs)
      (pairwise_isortB le htot htrans xs)

theorem sublist_insertBy_self (le : α → α → Bool) (x : α) :
    ∀ l : List α, l.Sublist (insertBy le x l)
  | [] => List.nil_sublist _
  | y :: ys => by
    unfold insertBy
    by_cases h : le x y = true
    · rw [if_pos h]
      exact List.sublist_cons_self x (y :: ys)
    · rw [if_neg h]
      exact (sublist_insertBy_self le x ys).cons₂ y

theorem pair_sublist_insertBy (le : α → α → Bool) (x y : α)
    (hxy : le x y = true) :
    ∀ l : List α, y ∈ l → [x, y].Sublist (insertBy le x l)
  | [], hy => absurd hy (List.not_mem_nil y)
  | z :: zs, hy => by
    unfold insertBy
    by_cases h : le x z = true
    · rw [if_pos h]
      exact (List.singleton_sublist.mpr hy).cons₂ x
    · rw [if_neg h]
      rcases List.mem_cons.1 hy with hz | hz
      · subst hz
        exact absurd hxy (by simp [h])
      · exact (pair_sublist_insertBy le x y hxy zs hz).cons z

/-- Stability of the insertion sort: an element that compares
less-or-equivalent and occurs earlier in the input stays earlier in the
output. -/
theorem pair_sublist_isortB (le : α → α → Bool) (x y : α)
    (hxy : le x y = true) :
    ∀ l : List α, [x, y].Sublist l → [x, y].Sublist (isortB le l)
  | [], h => by simp at h
  | a :: t, h => by
    unfold isortB
    rcases h with _ | ⟨_, _⟩
    case cons h' =>
      exact (pair_sublist_isortB le x y hxy t h').trans
        (sublist_insertBy_self le a (isortB le t))
    case cons₂ h' =>
      exact pair_sublist_insertBy le x y hxy (isortB le t)
        ((mem_isortB le t y).mpr (List.singleton_sublist.mp h'))

/-! ## String order and substring containment

DynamoDB compares strings bytewise and Python compares them by code point;
for the canonical ISO-8601 timestamps and names used here both coincide
with lexicographic comparison of the character lists. -/

/-- Lexicographic less-or-equal on character lists. -/
def lexLe : List Char → List Char → Bool
  | [], _ => true
  | _ :: _, [] => false
  | a :: as, b :: bs => if a = b then lexLe as bs else decide (a < b)

/-- Lexicographic less-or-equal on strings, modelling both the DynamoDB
string comparators and Python `datetime`/`str` comparison. -/
def strLeB (a b : String) : Bool := lexLe a.toList b.toList

theorem lexLe_total : ∀ as bs : List Char, lexLe as bs = true ∨ lexLe bs as = true
  | [], _ => Or.inl rfl
  | _ :: _, [] => Or.inr rfl
  | a :: as, b :: bs => by
    by_cases hab : a = b
    · subst hab
      simpa [lexLe] using lexLe_total as bs
    · rcases lt_or_gt_of_ne hab with h | h
      · exact Or.inl (by simp [lexLe, hab, h])
      · refine Or.inr (by simp [lexLe, Ne.symm hab, h])

theorem lexLe_trans : ∀ as bs cs : List Char,
    lexLe as bs = true → lexLe bs cs = true → lexLe as cs = true
  | [], _, _, _, _ => rfl
  | a :: as, [], _, h1, _ => absurd h1 (by simp [lexLe])
  | a :: as, b :: bs, [], _, h2 => absurd h2 (by simp [lexLe])
  | a :: as, b :: bs, c :: cs, h1, h2 => by
    by_cases hab : a = b
    · subst hab
      by_cases hbc : a = c
      · subst hbc
        simp only [lexLe, if_pos rfl] at h1 h2 ⊢
        exact lexLe_trans as bs cs h1 h2
      · simp only [lexLe, if_pos rfl] at h1
        simpa [lexLe, hbc] using h2
    · by_cases hbc : b = c
      · subst hbc
        simpa [lexLe, hab] using h1
      · simp only [lexLe, if_neg hab, decide_eq_true_eq] at h1
        simp only [lexLe, if_neg hbc, decide_eq_true_eq] at h2
        have hac : a < c := lt_trans h1 h2
        simp [lexLe, ne_of_lt hac, hac]

theorem strLeB_total (a b : String) : strLeB a b = true ∨ strLeB b a = true :=
  lexLe_total a.toList b.toList

theorem strLeB_trans {a b c : String} (h1 : strLeB a b = true)
    (h2 : strLeB b c = true) : strLeB a c = true :=
  lexLe_trans a.toList b.toList c.toList h1 h2

/-- Does `hay` start with `pat`? (helper for substring containment). -/
def listStartsWith : List Char → List Char → Bool
  | _, [] => true
  | [], _ :: _ => false
  | a :: as, b :: bs => decide (a = b) && listStartsWith as bs

/-- Does `hay` contain `pat` as a contiguous run? -/
def listHasSub : List Char → List Char → Bool
  | [], pat => pat.isEmpty
  | a :: t, pat => listStartsWith (a :: t) pat || listHasSub t pat

/-- Case-sensitive substring containment, modelling the DynamoDB `contains`
condition on strings (and Python's `in`). -/
def strContains (hay pat : String) : Bool := listHasSub hay.toList pat.toList

theorem strContains_empty (s : String) : strContains s "" = true := by
  unfold strContains
  cases h : s.toList with
  | nil => rfl
  | cons a t => rfl

/-! ## Data model (`app/models/launch.py`) -/

/-- Launch status enum (`LaunchStatus` in `app/models/launch.py`). -/
inductive LaunchStatus
  | success
  | failed
  | upcoming
deriving DecidableEq, Repr

/-- String value of a status, as stored in DynamoDB (`LaunchStatus.value`). -/
def LaunchStatus.value : LaunchStatus → String
  | .success => "success"
  | .failed => "failed"
  | .upcoming => "upcoming"

/-- Parse a stored status string; `LaunchStatus(item['status'])` raises
`ValueError` on unrecognized values, modelled by `none`. -/
def LaunchStatus.ofString (s : String) : Option LaunchStatus :=
  if s = "success" then some .success
  else if s = "failed" then some .failed
  else if s = "upcoming" then some .upcoming
  else none

theorem LaunchStatus.ofString_value : ∀ st : LaunchStatus, LaunchStatus.ofString st.value = some st
  | .success => rfl
  | .failed => rfl
  | .upcoming => rfl

/-- The canonical launch entity (`LaunchResponse` in `app/models/launch.py`).
`launch_date` holds the canonical ISO-8601 timestamp string. -/
structure LaunchResponse where
  id : String
  mission_name : String
  rocket_name : String
  launch_date : String
  status : LaunchStatus
  details : Option String := none
  flight_number : Option Int := none
  launch_site : Option String := none
deriving DecidableEq, Repr

/-- A raw DynamoDB item: a record of optional, loosely-typed attributes. -/
structure Item where
  launch_id : Option String := none
  mission_name : Option String := none
  rocket_name : Option String := none
  launch_date : Option String := none
  status : Option String := none
  details : Option String := none
  flight_number : Option Int := none
  launch_site : Option String := none
deriving DecidableEq, Repr

/-- The structured filter request (`LaunchFilter` in `app/models/launch.py`).
Dates are canonical ISO-8601 strings (see the module docstring). -/
structure LaunchFilter where
  mission_name : Option String := none
  rocket_name : Option String := none
  status : Option LaunchStatus := none
  start_date : Option String := none
  end_date : Option String := none
  launch_site : Option String := none
  flight_number_min : Option Int := none
  flight_number_max : Option Int := none
  limit : Option Nat := some 100
  last_evaluated_key : Option String := none
deriving DecidableEq, Repr

/-- Pydantic validation constraints on `LaunchFilter` (`ge=1` on the flight
bounds, `ge=1, le=1000` on the limit); a request that reaches the service
satisfies them. -/
def validLaunchFilter (f : LaunchFilter) : Bool :=
  (match f.flight_number_min with | some n => decide (1 ≤ n) | none => true) &&
  (match f.flight_number_max with | some n => decide (1 ≤ n) | none => true) &&
  (match f.limit with | some n => decide (1 ≤ n) && decide (n ≤ 1000) | none => true)

/-- The paginated list response (`LaunchListResponse`). -/
structure LaunchListResponse where
  launches : List LaunchResponse
  count : Nat
  last_evaluated_key : Option String := none
  has_more : Bool := false
deriving DecidableEq, Repr

/-! ## Record normalization (`LaunchService._item_to_launch_response`) -/

/-- Shape check for the `YYYY-MM-DD` part of an ISO-8601 timestamp. -/
def validIsoTimestamp (s : String) : Bool :=
  match s.toList with
  | c0 :: c1 :: c2 :: c3 :: c4 :: c5 :: c6 :: c7 :: c8 :: c9 :: _ =>
    c0.isDigit && c1.isDigit && c2.isDigit && c3.isDigit && decide (c4 = '-') &&
    c5.isDigit && c6.isDigit && decide (c7 = '-') && c8.isDigit && c9.isDigit
  | _ => false

/-- Model of `datetime.fromisoformat`: fails (`ValueError`) on strings that
are not ISO-8601 timestamps; a parsed datetime is identified with its
canonical string. -/
def fromisoformat (s : String) : Option String :=
  if validIsoTimestamp s then some s else none

theorem fromisoformat_eq {s d : String} (h : fromisoformat s = some d) : d = s := by
  unfold fromisoformat at h
  by_cases hv : validIsoTimestamp s = true
  · rw [if_pos hv] at h
    exact (Option.some.inj h).symm
  · rw [if_neg hv] at h
    exact absurd h (by simp)

/-- Convert a raw item to a `LaunchResponse`
(`LaunchService._item_to_launch_response`).  Missing required attributes
(`KeyError`), an unparsable timestamp or an unrecognized status
(`ValueError`) make the conversion fail, modelled by `none`; optional
attributes default to absent. -/
def itemToLaunchResponse (item : Item) : Option LaunchResponse :=
  match item.launch_id, item.mission_name, item.rocket_name,
        item.launch_date, item.status with
  | some lid, some mn, some rn, some ldRaw, some stRaw =>
    match fromisoformat ldRaw, LaunchStatus.ofString stRaw with
    | some ld, some st =>
      some { id := lid, mission_name := mn, rocket_name := rn,
             launch_date := ld, status := st, details := item.details,
             flight_number := item.flight_number,
             launch_site := item.launch_site }
    | _, _ => none
  | _, _, _, _, _ => none

theorem itemToLaunch_fields {it : Item} {l : LaunchResponse}
    (h : itemToLaunchResponse it = some l) :
    it.launch_id = some l.id ∧ it.mission_name = some l.mission_name ∧
    it.rocket_name = some l.rocket_name ∧ it.launch_date = some l.launch_date ∧
    (∃ raw, it.status = some raw ∧ LaunchStatus.ofString raw = some l.status) ∧
    l.details = it.details ∧ l.flight_number = it.flight_number ∧
    l.launch_site = it.launch_site := by
  unfold itemToLaunchResponse at h
  split at h
  case h_2 => exact absurd h (by simp)
  case h_1 lid mn rn ldRaw stRaw hid hmn hrn hld hst =>
    split at h
    case h_2 => exact absurd h (by simp)
    case h_1 ld st hiso hofs =>
      have hl := Option.some.inj h
      subst hl
      refine ⟨hid, hmn, hrn, ?_, ⟨stRaw, hst, hofs⟩, rfl, rfl, rfl⟩
      rw [hld, fromisoformat_eq hiso]

/-! ## Python truthiness of optional parameters -/

/-- Truthiness of an optional string (`if x:` in Python): present and
nonempty. -/
def truthyOptStr : Option String → Bool
  | none => false
  | some s => !(s == "")

/-- Truthiness of an optional integer (`if x:` in Python): present and
nonzero. -/
def truthyOptInt : Option Int → Bool
  | none => false
  | some n => !(n == 0)

/-- The `ExclusiveStartKey` actually sent to the scan: the services guard the
cursor with `if last_evaluated_key:` (Python truthiness), so a `None` or
empty cursor sends no key. -/
def effExclusiveStartKey (lek : Option String) : Option String :=
  if truthyOptStr lek then lek else none

/-! ## DynamoDB scan model

`table.scan(Limit=..., ExclusiveStartKey=..., FilterExpression=...)`:
the scan walks the stored items in table order, resuming strictly after the
item whose key equals `ExclusiveStartKey`, examines at most `Limit` raw
items, returns among them those satisfying the filter expression, and
reports a `LastEvaluatedKey` exactly when it stopped because of the
limit. -/

/-- Items remaining after the `ExclusiveStartKey` ("start strictly after
this key"). -/
def segmentAfter (tbl : List Item) : Option String → List Item
  | none => tbl
  | some k => (tbl.dropWhile (fun it => decide (it.launch_id ≠ some k))).drop 1

/-- Raw items examined by one scan call: at most `limit` of them. -/
def scanExamined (tbl : List Item) (limit : Nat) (esk : Option String) : List Item :=
  (segmentAfter tbl esk).take limit

/-- Evaluate an optional filter expression (no expression = match-all). -/
def applyFE (fe : Option (Item → Bool)) (it : Item) : Bool :=
  match fe with
  | none => true
  | some p => p it

/-- Items returned by one scan call: the filter expression is evaluated on
the examined items only. -/
def scanItems (tbl : List Item) (limit : Nat) (esk : Option String)
    (fe : Option (Item → Bool)) : List Item :=
  (scanExamined tbl limit esk).filter (applyFE fe)

/-- The `LastEvaluatedKey` of a scan response: the key of the last examined
item, present exactly when the scan stopped because of the limit. -/
def scanLastEvaluatedKey (tbl : List Item) (limit : Nat) (esk : Option String) :
    Option String :=
  let seg := segmentAfter tbl esk
  if 0 < limit ∧ limit ≤ seg.length then
    ((seg.take limit).getLast?).bind (fun it => it.launch_id)
  else none

theorem segmentAfter_sublist (tbl : List Item) (esk : Option String) :
    (segmentAfter tbl esk).Sublist tbl := by
  cases esk with
  | none => exact List.Sublist.refl tbl
  | some k =>
    exact ((List.drop_sublist 1 _).trans (List.dropWhile_sublist _))

theorem scanExamined_sublist (tbl : List Item) (limit : Nat) (esk : Option String) :
    (scanExamined tbl limit esk).Sublist tbl :=
  (List.take_sublist _ _).trans (segmentAfter_sublist tbl esk)

theorem length_scanExamined_le (tbl : List Item) (limit : Nat) (esk : Option String) :
    (scanExamined tbl limit esk).length ≤ limit := by
  unfold scanExamined
  simp [List.length_take_le]

theorem scanItems_sublist_examined (tbl : List Item) (limit : Nat)
    (esk : Option String) (fe : Option (Item → Bool)) :
    (scanItems tbl limit esk fe).Sublist (scanExamined tbl limit esk) :=
  List.filter_sublist _

/-- Under unique keys, no item of the segment after key `k` carries key `k`
(the scan resumes strictly after that item). -/
theorem mem_segmentAfter_ne {k : String} :
    ∀ tbl : List Item, (tbl.filterMap (fun it => it.launch_id)).Nodup →
      ∀ it ∈ segmentAfter tbl (some k), it.launch_id ≠ some k
  | [], _, it, hit => by simp [segmentAfter] at hit
  | a :: t, hnd, it, hit => by
    by_cases ha : a.launch_id = some k
    · have hseg : segmentAfter (a :: t) (some k) = t := by
        simp [segmentAfter, List.dropWhile_cons, ha]
      rw [hseg] at hit
      intro hid
      have hkmem : k ∈ t.filterMap (fun it => it.launch_id) :=
        List.mem_filterMap.mpr ⟨it, hit, hid⟩
      have := List.filterMap_cons (f := fun it => it.launch_id) (a := a) (l := t)
      rw [this, ha] at hnd
      exact (List.nodup_cons.1 hnd).1 hkmem
    · have hseg : segmentAfter (a :: t) (some k) = segmentAfter t (some k) := by
        simp [segmentAfter, List.dropWhile_cons, ha]
      rw [hseg] at hit
      have hnd' : (t.filterMap (fun it => it.launch_id)).Nodup := by
        have := List.filterMap_cons (f := fun it => it.launch_id) (a := a) (l := t)
        rw [this] at hnd
        cases hc : a.launch_id with
        | none => rwa [hc] at hnd
        | some k' =>
          rw [hc] at hnd
          exact (List.nodup_cons.1 hnd).2
      exact mem_segmentAfter_ne t hnd' it hit

theorem getLast?_mem_of_eq : ∀ (l : List Item) (a : Item), l.getLast? = some a → a ∈ l
  | [], a, h => by simp at h
  | [x], a, h => by
    simp only [List.getLast?_singleton] at h
    simp [Option.some.inj h]
  | x :: y :: t, a, h => by
    rw [List.getLast?_cons_cons] at h
    exact List.mem_cons_of_mem x (getLast?_mem_of_eq (y :: t) a h)

/-- An emitted `LastEvaluatedKey` is the key of some stored item. -/
theorem scanLastEvaluatedKey_mem {tbl : List Item} {limit : Nat}
    {esk : Option String} {c : String}
    (h : scanLastEvaluatedKey tbl limit esk = some c) :
    ∃ it ∈ tbl, it.launch_id = some c := by
  simp only [scanLastEvaluatedKey] at h
  split at h
  case isTrue =>
    rcases Option.bind_eq_some.mp h with ⟨it, hlast, hid⟩
    refine ⟨it, ?_, hid⟩
    have hmem : it ∈ (segmentAfter tbl esk).take limit :=
      getLast?_mem_of_eq _ it hlast
    exact (scanExamined_sublist tbl limit esk).subset hmem
  case isFalse => exact absurd h (by simp)

/-! ## Query façade (`LaunchService` in `app/services/launch_service.py`) -/

/-- Sort most-recent-first: `launches.sort(key=lambda x: x.launch_date, reverse=True)`. -/
def sortByDateDesc (ls : List LaunchResponse) : List LaunchResponse :=
  isortB (fun a b => strLeB b.launch_date a.launch_date) ls

/-- Sort earliest-first: `launches.sort(key=lambda x: x.launch_date)`. -/
def sortByDateAsc (ls : List LaunchResponse) : List LaunchResponse :=
  isortB (fun a b => strLeB a.launch_date b.launch_date) ls

/-- `LaunchService.get_all_launches`: unfiltered paginated scan, skipping
records `_item_to_launch_response` rejects, sorted most-recent-first. -/
def get_all_launches (tbl : List Item) (limit : Nat)
    (last_evaluated_key : Option String) :
    List LaunchResponse × Option String × Bool :=
  let esk := effExclusiveStartKey last_evaluated_key
  let launches := (scanItems tbl limit esk none).filterMap itemToLaunchResponse
  let lastKey := scanLastEvaluatedKey tbl limit esk
  (sortByDateDesc launches, lastKey, lastKey.isSome)

/-- The date-range filter expression:
`Attr('launch_date').between(start.isoformat(), end.isoformat())` (inclusive;
an item without the attribute does not match). -/
def dateRangeFilterExpr (startD endD : String) : Item → Bool :=
  fun it =>
    match it.launch_date with
    | some d => strLeB startD d && strLeB d endD
    | none => false

/-- `LaunchService.get_launches_by_date_range`: scan with the date-range
filter expression, skipping invalid records, sorted earliest-first. -/
def get_launches_by_date_range (tbl : List Item) (start_date end_date : String)
    (limit : Nat) (last_evaluated_key : Option String) :
    List LaunchResponse × Option String × Bool :=
  let esk := effExclusiveStartKey last_evaluated_key
  let launches := (scanItems tbl limit esk
      (some (dateRangeFilterExpr start_date end_date))).filterMap itemToLaunchResponse
  let lastKey := scanLastEvaluatedKey tbl limit esk
  (sortByDateAsc launches, lastKey, lastKey.isSome)

/-! ### Filter predicate builder (`LaunchService.filter_launches`)

Each guarded `filter_expressions.append(...)` of the source contributes a
group of zero or one expressions; the groups are concatenated in source
order and combined with `&`. -/

/-- `if filters.mission_name: append(Attr('mission_name').contains(...))`. -/
def missionExprs (f : LaunchFilter) : List (Item → Bool) :=
  match f.mission_name with
  | some s => if s ≠ "" then
      [fun it => match it.mission_name with
                 | some v => strContains v s
                 | none => false]
    else []
  | none => []

/-- `if filters.rocket_name: append(Attr('rocket_name').contains(...))`. -/
def rocketExprs (f : LaunchFilter) : List (Item → Bool) :=
  match f.rocket_name with
  | some s => if s ≠ "" then
      [fun it => match it.rocket_name with
                 | some v => strContains v s
                 | none => false]
    else []
  | none => []

/-- `if filters.status: append(Attr('status').eq(filters.status.value))`
(enum values are nonempty strings, hence always truthy). -/
def statusExprs (f : LaunchFilter) : List (Item → Bool) :=
  match f.status with
  | some st => [fun it => decide (it.status = some st.value)]
  | none => []

/-- `if filters.launch_site: append(Attr('launch_site').contains(...))`. -/
def siteExprs (f : LaunchFilter) : List (Item → Bool) :=
  match f.launch_site with
  | some s => if s ≠ "" then
      [fun it => match it.launch_site with
                 | some v => strContains v s
                 | none => false]
    else []
  | none => []

/-- Date bounds: `between` when both are given, otherwise the one-sided
`gte`/`lte` (datetimes are always truthy). -/
def dateExprs (f : LaunchFilter) : List (Item → Bool) :=
  match f.start_date, f.end_date with
  | some s, some e =>
    [fun it => match it.launch_date with
               | some d => strLeB s d && strLeB d e
               | none => false]
  | some s, none =>
    [fun it => match it.launch_date with
               | some d => strLeB s d
               | none => false]
  | none, some e =>
    [fun it => match it.launch_date with
               | some d => strLeB d e
               | none => false]
  | none, none => []

/-- Flight-number bounds, with Python truthiness on the optional ints:
`between` when both are truthy, otherwise the truthy one-sided bound. -/
def flightExprs (f : LaunchFilter) : List (Item → Bool) :=
  if truthyOptInt f.flight_number_min && truthyOptInt f.flight_number_max then
    [fun it => match it.flight_number with
               | some n => decide (f.flight_number_min.getD 0 ≤ n) &&
                           decide (n ≤ f.flight_number_max.getD 0)
               | none => false]
  else if truthyOptInt f.flight_number_min then
    [fun it => match it.flight_number with
               | some n => decide (f.flight_number_min.getD 0 ≤ n)
               | none => false]
  else if truthyOptInt f.flight_number_max then
    [fun it => match it.flight_number with
               | some n => decide (n ≤ f.flight_number_max.getD 0)
               | none => false]
  else []

/-- All filter expressions appended by `filter_launches`, in source order. -/
def buildFilterExpressions (f : LaunchFilter) : List (Item → Bool) :=
  missionExprs f ++ rocketExprs f ++ statusExprs f ++ siteExprs f ++
    dateExprs f ++ flightExprs f

/-- Combine the expressions with `&` (logical AND); an empty list means no
`FilterExpression` is sent. -/
def combineExprs : List (Item → Bool) → Option (Item → Bool)
  | [] => none
  | e :: es => some (es.foldl (fun acc e2 => fun it => acc it && e2 it) e)

theorem foldl_and_apply (it : Item) :
    ∀ (es : List (Item → Bool)) (e : Item → Bool),
      (es.foldl (fun acc e2 => fun it => acc it && e2 it) e) it =
        (e it && es.all (fun e2 => e2 it))
  | [], e => by simp
  | e2 :: es, e => by
    rw [List.foldl_cons, foldl_and_apply it es, List.all_cons]
    simp [Bool.and_assoc]

/-- Evaluating the combined expression is evaluating the conjunction of all
appended expressions. -/
theorem applyFE_combineExprs (es : List (Item → Bool)) (it : Item) :
    applyFE (combineExprs es) it = es.all (fun e => e it) := by
  cases es with
  | nil => simp [combineExprs, applyFE]
  | cons e es =>
    simp only [combineExprs, applyFE, List.all_cons]
    exact foldl_and_apply it es e

/-- Effective scan limit of a filter request: `filters.limit or 100`
(Python `or`: a missing or zero limit falls back to 100). -/
def effLimit (f : LaunchFilter) : Nat :=
  match f.limit with
  | some n => if n ≠ 0 then n else 100
  | none => 100

/-- `LaunchService.filter_launches`: scan with the combined filter
expression, limit and cursor from the request, skipping invalid records,
sorted most-recent-first. -/
def filter_launches (tbl : List Item) (f : LaunchFilter) :
    List LaunchResponse × Option String × Bool :=
  let fe := combineExprs (buildFilterExpressions f)
  let limit := effLimit f
  let esk := effExclusiveStartKey f.last_evaluated_key
  let launches := (scanItems tbl limit esk fe).filterMap itemToLaunchResponse
  let lastKey := scanLastEvaluatedKey tbl limit esk
  (sortByDateDesc launches, lastKey, lastKey.isSome)

/-- `table.get_item(Key={'launch_id': launch_id})`: point lookup by primary
key. -/
def getItem (tbl : List Item) (launch_id : String) : Option Item :=
  tbl.find? (fun it => decide (it.launch_id = some launch_id))

/-- Error detail attached by `_item_to_launch_response` on a malformed
record. -/
def invalidFormatMsg : String := "Formato de datos inválido"

/-- `LaunchService.get_launch_by_id`: point lookup; a missing record is an
explicit absent result, while a malformed record raises (`ValueError`
rewrapped by the generic `except` into a service-level error). -/
def get_launch_by_id (tbl : List Item) (launch_id : String) :
    Except String (Option LaunchResponse) :=
  match getItem tbl launch_id with
  | some item =>
    match itemToLaunchResponse item with
    | some l => Except.ok (some l)
    | none => Except.error ("Error obteniendo lanzamiento: " ++ invalidFormatMsg)
  | none => Except.ok none

/-! ## HTTP boundary (`app/routers/launches.py`)

Each endpoint is modelled as a pure function of the store contents; the
second component counts the scan calls issued to the store, so that
"the store query is not attempted" is the statement that the count is 0. -/

/-- HTTP-level error outcome raised by the routers. -/
inductive ApiError
  | badRequest (detail : String)
  | notFound (detail : String)
  | internal (detail : String)
deriving DecidableEq, Repr

/-- Detail message of the inverted-date 400 response. -/
def invalidRangeMsg : String := "La fecha de inicio debe ser anterior a la fecha de fin"

/-- `GET /launches/date-range`: 400 before any store call when
`start_date >= end_date`, otherwise one scan through the service. -/
def get_launches_by_date_range_endpoint (tbl : List Item)
    (start_date end_date : String) (limit : Nat) (last_evaluated_key : Option String) :
    Except ApiError LaunchListResponse × Nat :=
  if strLeB end_date start_date then
    (Except.error (ApiError.badRequest invalidRangeMsg), 0)
  else
    let r := get_launches_by_date_range tbl start_date end_date limit last_evaluated_key
    (Except.ok ⟨r.1, r.1.length, r.2.1, r.2.2⟩, 1)

/-- `POST /launches/filter`: 400 before any store call when both date bounds
are present and `start_date >= end_date`, otherwise one scan through the
service.  No check is performed on the flight-number bounds. -/
def filter_launches_endpoint (tbl : List Item) (f : LaunchFilter) :
    Except ApiError LaunchListResponse × Nat :=
  if (match f.start_date, f.end_date with
      | some s, some e => strLeB e s
      | _, _ => false) then
    (Except.error (ApiError.badRequest invalidRangeMsg), 0)
  else
    let r := filter_launches tbl f
    (Except.ok ⟨r.1, r.1.length, r.2.1, r.2.2⟩, 1)

/-- `GET /launches/{launch_id}`: 404 on an absent record, 500 when the
service raised (e.g. on a malformed stored record). -/
def get_launch_by_id_endpoint (tbl : List Item) (launch_id : String) :
    Except ApiError LaunchResponse :=
  match get_launch_by_id tbl launch_id with
  | Except.ok (some l) => Except.ok l
  | Except.ok none => Except.error (ApiError.notFound "Lanzamiento no encontrado")
  | Except.error msg => Except.error (ApiError.internal msg)

/-- Is the outcome a 400-class (`InvalidRange`) response? -/
def isBadRequest : Except ApiError LaunchListResponse → Bool
  | Except.error (ApiError.badRequest _) => true
  | _ => false

/-- Is the outcome a 500-class (generic internal) response? -/
def isInternalError : Except ApiError LaunchResponse → Bool
  | Except.error (ApiError.internal _) => true
  | _ => false

/-! ## Aggregator (`GET /launches/stats/summary`) -/

/-- Round a rational to the nearest integer, halves to even — the model of
Python's `round` (binary floating-point artifacts aside). -/
def roundHalfEven (q : ℚ) : ℤ :=
  let f := ⌊q⌋
  let r := q - (f : ℚ)
  if r < 1 / 2 then f
  else if 1 / 2 < r then f + 1
  else if f % 2 = 0 then f else f + 1

/-- Model of Python's `round(x, 2)`. -/
def pyRound2 (q : ℚ) : ℚ := (roundHalfEven (q * 100) : ℚ) / 100

/-- One step of the `rocket_counts` dict loop:
`rocket_counts[name] = rocket_counts.get(name, 0) + 1`.  Python dicts keep
insertion order, and updating an existing key keeps its position. -/
def bumpRocket (acc : List (String × Nat)) (name : String) : List (String × Nat) :=
  if name ∈ acc.map Prod.fst then
    acc.map (fun p => if p.1 = name then (p.1, p.2 + 1) else p)
  else acc ++ [(name, 1)]

/-- The `rocket_counts` dict after the loop, as an insertion-ordered
association list. -/
def rocketCounts (ls : List LaunchResponse) : List (String × Nat) :=
  ls.foldl (fun acc l => bumpRocket acc l.rocket_name) []

/-- Comparison used by
`sorted(rocket_counts.items(), key=lambda x: x[1], reverse=True)`. -/
def countGe (a b : String × Nat) : Bool := decide (b.2 ≤ a.2)

/-- The aggregate statistics object returned by the summary endpoint. -/
structure LaunchSummary where
  total_launches : Nat
  successful_launches : Nat
  failed_launches : Nat
  upcoming_launches : Nat
  success_rate : ℚ
  most_used_rockets : List (String × Nat)

/-- `get_launches_summary` in `app/routers/launches.py`: reduce the page
returned by `get_all_launches(limit=1000)` client-side. -/
def get_launches_summary (tbl : List Item) : LaunchSummary :=
  let all_launches := (get_all_launches tbl 1000 none).1
  let total := all_launches.length
  let successful := (all_launches.filter (fun l => decide (l.status = LaunchStatus.success))).length
  let failed := (all_launches.filter (fun l => decide (l.status = LaunchStatus.failed))).length
  let upcoming := (all_launches.filter (fun l => decide (l.status = LaunchStatus.upcoming))).length
  let most_used := (isortB countGe (rocketCounts all_launches)).take 5
  { total_launches := total
    successful_launches := successful
    failed_launches := failed
    upcoming_launches := upcoming
    success_rate := if 0 < total then pyRound2 ((successful : ℚ) / (total : ℚ) * 100) else 0
    most_used_rockets := most_used }

/-- First-encounter order of the keys of a sequence (Python dict key order
after the counting loop): each key listed at its first occurrence. -/
def newKeys (seen : List String) : List String → List String
  | [] => []
  | n :: t => if n ∈ seen then newKeys seen t else n :: newKeys (seen ++ [n]) t

theorem newKeys_not_mem : ∀ (t seen : List String) (k : String),
    k ∈ newKeys seen t → k ∉ seen
  | [], _, _, hk => by simp [newKeys] at hk
  | n :: t, seen, k, hk => by
    unfold newKeys at hk
    by_cases hn : n ∈ seen
    · rw [if_pos hn] at hk
      exact newKeys_not_mem t seen k hk
    · rw [if_neg hn] at hk
      rcases List.mem_cons.1 hk with rfl | hk
      · exact hn
      · intro hks
        exact newKeys_not_mem t (seen ++ [n]) k hk (List.mem_append_left _ hks)

theorem bumpRocket_keys_mem (acc : List (String × Nat)) (n : String)
    (hmem : n ∈ acc.map Prod.fst) :
    bumpRocket acc n = acc.map (fun p => if p.1 = n then (p.1, p.2 + 1) else p) := by
  simp [bumpRocket, hmem]

theorem bumpRocket_keys_not_mem (acc : List (String × Nat)) (n : String)
    (hmem : n ∉ acc.map Prod.fst) :
    bumpRocket acc n = acc ++ [(n, 1)] := by
  simp [bumpRocket, hmem]

/-- The `rocket_counts` loop, characterized: after processing a name
sequence, the dict associates to each key — listed in first-encounter
order — its number of occurrences. -/
theorem foldl_bumpRocket_eq : ∀ (ns : List String) (acc : List (String × Nat)),
    ns.foldl bumpRocket acc =
      acc.map (fun p => (p.1, p.2 + ns.count p.1)) ++
        (newKeys (acc.map Prod.fst) ns).map (fun k => (k, ns.count k))
  | [], acc => by simp [newKeys]
  | n :: t, acc => by
    rw [List.foldl_cons]
    by_cases hmem : n ∈ acc.map Prod.fst
    · rw [bumpRocket_keys_mem acc n hmem, foldl_bumpRocket_eq t _]
      have hkeys : (acc.map (fun p => if p.1 = n then (p.1, p.2 + 1) else p)).map Prod.fst
          = acc.map Prod.fst := by
        rw [List.map_map]
        refine List.map_congr_left ?_
        intro p _
        by_cases hp : p.1 = n <;> simp [hp]
      rw [hkeys, List.map_map]
      have h1 : acc.map ((fun p : String × Nat => (p.1, p.2 + t.count p.1)) ∘
          (fun p : String × Nat => if p.1 = n then (p.1, p.2 + 1) else p))
          = acc.map (fun p => (p.1, p.2 + (n :: t).count p.1)) := by
        refine List.map_congr_left ?_
        intro p _
        by_cases hp : p.1 = n
        · simp [hp, List.count_cons]
          omega
        · simp [hp, List.count_cons, Ne.symm hp]
      have h2 : (newKeys (acc.map Prod.fst) t).map (fun k => (k, t.count k))
          = (newKeys (acc.map Prod.fst) t).map (fun k => (k, (n :: t).count k)) := by
        refine List.map_congr_left ?_
        intro k hk
        have hkn : k ≠ n := by
          intro hkn
          exact newKeys_not_mem t _ k hk (hkn ▸ hmem)
        simp [List.count_cons, Ne.symm hkn]
      have h3 : newKeys (acc.map Prod.fst) (n :: t) = newKeys (acc.map Prod.fst) t := by
        simp [newKeys, hmem]
      rw [h1, h2, h3]
    · rw [bumpRocket_keys_not_mem acc n hmem, foldl_bumpRocket_eq t _]
      have hkeys : ((acc ++ [(n, 1)]).map Prod.fst) = acc.map Prod.fst ++ [n] := by
        simp
      rw [hkeys, List.map_append]
      have h1 : acc.map (fun p : String × Nat => (p.1, p.2 + t.count p.1))
          = acc.map (fun p => (p.1, p.2 + (n :: t).count p.1)) := by
        refine List.map_congr_left ?_
        intro p hp
        have hpn : p.1 ≠ n := by
          intro hpn
          exact hmem (hpn ▸ List.mem_map_of_mem Prod.fst hp)
        simp [List.count_cons, Ne.symm hpn]
      have h2 : ([((n : String), (1 : Nat))].map (fun p : String × Nat => (p.1, p.2 + t.count p.1)))
          = [(n, (n :: t).count n)] := by
        simp [List.count_cons, Nat.add_comm]
      have h3 : (newKeys (acc.map Prod.fst ++ [n]) t).map (fun k => (k, t.count k))
          = (newKeys (acc.map Prod.fst ++ [n]) t).map (fun k => (k, (n :: t).count k)) := by
        refine List.map_congr_left ?_
        intro k hk
        have hkn : k ≠ n := by
          intro hkn
          exact newKeys_not_mem t _ k hk (List.mem_append_right _ (by simp [hkn]))
        simp [List.count_cons, Ne.symm hkn]
      have h4 : newKeys (acc.map Prod.fst) (n :: t)
          = n :: newKeys (acc.map Prod.fst ++ [n]) t := by
        simp [newKeys, hmem]
      rw [h1, h2, h3, h4, List.map_cons, List.append_assoc]
      simp [List.count_cons]

/-- `rocket_counts` lists each rocket name at its first encounter in the
scanned sequence, associated with its launch count. -/
theorem rocketCounts_eq (ls : List LaunchResponse) :
    rocketCounts ls =
      (newKeys [] (ls.map (fun l => l.rocket_name))).map
        (fun k => (k, (ls.map (fun l => l.rocket_name)).count k)) := by
  unfold rocketCounts
  rw [show (fun (acc : List (String × Nat)) (l : LaunchResponse) =>
        bumpRocket acc l.rocket_name) = fun acc l => bumpRocket acc ((fun l : LaunchResponse => l.rocket_name) l) from rfl,
    ← List.foldl_map, foldl_bumpRocket_eq]
  simp

/-! ## Auxiliary lemmas for the claims -/

theorem length_filterMap_eq_countP (g : α → Option β) (l : List α) :
    (l.filterMap g).length = l.countP (fun a => (g a).isSome) := by
  induction l with
  | nil => rfl
  | cons a t ih =>
    rw [List.filterMap_cons, List.countP_cons]
    cases h : g a <;> simp [h, ih]

theorem validLaunchFilter_min {f : LaunchFilter} {m : Int}
    (hf : validLaunchFilter f = true) (hm : f.flight_number_min = some m) :
    1 ≤ m := by
  rw [validLaunchFilter, hm] at hf
  simp [Bool.and_eq_true] at hf
  exact hf.1.1

theorem validLaunchFilter_max {f : LaunchFilter} {M : Int}
    (hf : validLaunchFilter f = true) (hM : f.flight_number_max = some M) :
    1 ≤ M := by
  rw [validLaunchFilter, hM] at hf
  simp [Bool.and_eq_true] at hf
  exact hf.1.2

theorem truthyOptInt_of_one_le {n : Int} (h : 1 ≤ n) :
    truthyOptInt (some n) = true := by
  have hne : n ≠ 0 := by omega
  simp [truthyOptInt, hne]

theorem descLe_total (a b : LaunchResponse) :
    strLeB b.launch_date a.launch_date = false →
      strLeB a.launch_date b.launch_date = true := by
  intro h
  rcases strLeB_total b.launch_date a.launch_date with h' | h'
  · exact absurd h' (by simp [h])
  · exact h'

theorem ascLe_total (a b : LaunchResponse) :
    strLeB a.launch_date b.launch_date = false →
      strLeB b.launch_date a.launch_date = true := by
  intro h
  rcases strLeB_total a.launch_date b.launch_date with h' | h'
  · exact absurd h' (by simp [h])
  · exact h'

theorem countGe_total (a b : String × Nat) :
    countGe a b = false → countGe b a = true := by
  simp only [countGe, decide_eq_false_iff_not, decide_eq_true_eq]
  omega

theorem countGe_trans (a b c : String × Nat) :
    countGe a b = true → countGe b c = true → countGe a c = true := by
  simp only [countGe, decide_eq_true_eq]
  omega

/-! ## Concrete store contents used by the witnesses -/

/-- A fully-populated valid item. -/
def itemA : Item :=
  { launch_id := some "a", mission_name := some "Starlink-9 (v1.0)",
    rocket_name := some "Falcon 9",
    launch_date := some "2020-08-07T05:12:00+00:00", status := some "success",
    details := some "Ninth batch of operational Starlink satellites",
    flight_number := some 99, launch_site := some "CCAFS SLC 40" }

/-- A second valid item, earlier launch. -/
def itemB : Item :=
  { launch_id := some "b", mission_name := some "OG-2 Mission 2",
    rocket_name := some "Falcon 9",
    launch_date := some "2015-12-22T01:29:00+00:00", status := some "success",
    flight_number := some 25 }

/-- A third valid item, earliest launch, different rocket. -/
def itemC : Item :=
  { launch_id := some "c", mission_name := some "FalconSat",
    rocket_name := some "Falcon 1",
    launch_date := some "2006-03-24T22:30:00+00:00", status := some "failed",
    flight_number := some 1 }

/-- A malformed item: the required `mission_name` attribute is missing. -/
def itemBad : Item :=
  { launch_id := some "x", rocket_name := some "Falcon 9",
    launch_date := some "2020-01-01T00:00:00+00:00", status := some "success" }

/-- Normalized form of `itemC`. -/
def launchC : LaunchResponse :=
  { id := "c", mission_name := "FalconSat", rocket_name := "Falcon 1",
    launch_date := "2006-03-24T22:30:00+00:00", status := LaunchStatus.failed,
    flight_number := some 1 }

/-- Normalized form of `itemA`. -/
def launchA : LaunchResponse :=
  { id := "a", mission_name := "Starlink-9 (v1.0)", rocket_name := "Falcon 9",
    launch_date := "2020-08-07T05:12:00+00:00", status := LaunchStatus.success,
    details := some "Ninth batch of operational Starlink satellites",
    flight_number := some 99, launch_site := some "CCAFS SLC 40" }

/-- A three-item store with distinct, nonempty keys. -/
def tbl3 : List Item := [itemA, itemB, itemC]

/-- Store used for the limit-vs-matches demonstration: the second examined
item does not match while a later one does. -/
def tblC2 : List Item := [itemA, itemC, itemB]

/-- Filter request with a substring predicate and a scan limit of 2. -/
def fC2 : LaunchFilter := { rocket_name := some "Falcon 9", limit := some 2 }

/-- Filter request with every predicate field set, matching `itemA`. -/
def fC3 : LaunchFilter :=
  { mission_name := some "Star", rocket_name := some "Falcon",
    status := some LaunchStatus.success,
    start_date := some "2020-01-01T00:00:00",
    end_date := some "2021-01-01T00:00:00", launch_site := some "SLC",
    flight_number_min := some 10, flight_number_max := some 100,
    limit := some 100 }

/-- Filter request with inverted flight-number bounds (min > max) and no
date bounds. -/
def fC1 : LaunchFilter :=
  { flight_number_min := some 5, flight_number_max := some 3, limit := some 100 }

/-- Filter request with inverted date bounds. -/
def fC1d : LaunchFilter :=
  { start_date := some "2024-02-01T00:00:00", end_date := some "2024-01-01T00:00:00" }

/-! ## Claims -/

/-- C6: for every date-range request with start ≥ end, the date-range
endpoint fails with the `InvalidRange` 400 response and no store call is
made (the scan-call counter of the endpoint is 0, and the outcome does not
depend on the store contents). -/
theorem c6_date_range_invalid_range (tbl : List Item) (s e : String)
    (limit : Nat) (lek : Option String) (h : strLeB e s = true) :
    get_launches_by_date_range_endpoint tbl s e limit lek =
      (Except.error (ApiError.badRequest invalidRangeMsg), 0) := by
  unfold get_launches_by_date_range_endpoint
  rw [if_pos h]

/-- Witness for C6 at a concrete inverted range. -/
theorem c6_witness :
    strLeB "2024-01-01T00:00:00" "2024-02-01T00:00:00" = true ∧
    get_launches_by_date_range_endpoint tbl3 "2024-02-01T00:00:00"
        "2024-01-01T00:00:00" 100 none =
      (Except.error (ApiError.badRequest invalidRangeMsg), 0) :=
  ⟨by decide,
   c6_date_range_invalid_range tbl3 "2024-02-01T00:00:00" "2024-01-01T00:00:00"
     100 none (by decide)⟩

/-- C10: a point lookup that finds a stored record which fails
normalization surfaces as a 500-class internal error, not as a skipped
record or an absent (404) result. -/
theorem c10_point_lookup_malformed_500 (tbl : List Item) (launch_id : String)
    (it : Item) (hfind : getItem tbl launch_id = some it)
    (hbad : itemToLaunchResponse it = none) :
    isInternalError (get_launch_by_id_endpoint tbl launch_id) = true := by
  unfold get_launch_by_id_endpoint get_launch_by_id
  rw [hfind]
  simp [hbad, isInternalError]

/-- Witness for C10: a stored record missing `mission_name`. -/
theorem c10_witness :
    getItem [itemBad] "x" = some itemBad ∧
    itemToLaunchResponse itemBad = none ∧
    isInternalError (get_launch_by_id_endpoint [itemBad] "x") = true :=
  ⟨by decide, by decide,
   c10_point_lookup_malformed_500 [itemBad] "x" itemBad (by decide) (by decide)⟩

/-- C9: the query pipeline is deterministic — running any of the four
operations twice against unchanged store contents yields the same result. -/
theorem c9_query_deterministic (tbl1 tbl2 : List Item) (h : tbl1 = tbl2) :
    (∀ limit lek, get_all_launches tbl1 limit lek = get_all_launches tbl2 limit lek) ∧
    (∀ s e limit lek, get_launches_by_date_range tbl1 s e limit lek =
        get_launches_by_date_range tbl2 s e limit lek) ∧
    (∀ f, filter_launches tbl1 f = filter_launches tbl2 f) ∧
    (∀ launch_id, get_launch_by_id tbl1 launch_id = get_launch_by_id tbl2 launch_id) := by
  subst h
  exact ⟨fun _ _ => rfl, fun _ _ _ _ => rfl, fun _ => rfl, fun _ => rfl⟩

/-- Witness for C9 at concrete store contents and query. -/
theorem c9_witness :
    filter_launches tbl3 fC2 = filter_launches tbl3 fC2 :=
  (c9_query_deterministic tbl3 tbl3 rfl).2.2.1 fC2

/-- C2: the scan limit bounds the raw records examined per call (and hence
the matches returned are among at most `limit` examined records), not the
number of matches: concretely, a filter call can return fewer matches than
its limit while a further record of the table matches and normalizes. -/
theorem c2_limit_bounds_examined_not_matches :
    (∀ tbl limit esk, (scanExamined tbl limit esk).length ≤ limit) ∧
    (∀ tbl f, (filter_launches tbl f).1.length ≤
        (scanExamined tbl (effLimit f) (effExclusiveStartKey f.last_evaluated_key)).length) ∧
    (∀ tbl s e limit lek, (get_launches_by_date_range tbl s e limit lek).1.length ≤
        (scanExamined tbl limit (effExclusiveStartKey lek)).length) ∧
    ((filter_launches tblC2 fC2).1.length < effLimit fC2 ∧
      itemB ∈ tblC2 ∧
      applyFE (combineExprs (buildFilterExpressions fC2)) itemB = true ∧
      itemB ∉ scanExamined tblC2 (effLimit fC2) (effExclusiveStartKey fC2.last_evaluated_key) ∧
      (itemToLaunchResponse itemB).isSome = true) := by
  refine ⟨fun tbl limit esk => length_scanExamined_le tbl limit esk, ?_, ?_, ?_⟩
  · intro tbl f
    simp only [filter_launches, sortByDateDesc]
    rw [(perm_isortB _ _).length_eq]
    exact le_trans (List.length_filterMap_le _ _) (List.length_filter_le _ _)
  · intro tbl s e limit lek
    simp only [get_launches_by_date_range, sortByDateAsc]
    rw [(perm_isortB _ _).length_eq]
    exact le_trans (List.length_filterMap_le _ _) (List.length_filter_le _ _)
  · exact ⟨by decide, by decide, by decide, by decide, by decide⟩

/-- C5: the batch operations return exactly the normalizable records of the
scanned (and filtered) batch: the page is a permutation of the per-record
normalization of the batch, its size counts exactly the records
`_item_to_launch_response` accepts, and malformed records are dropped
individually without any error outcome. -/
theorem c5_malformed_records_skipped (tbl : List Item) (limit : Nat)
    (lek : Option String) (s e : String) (f : LaunchFilter) :
    (get_all_launches tbl limit lek).1.length =
      (scanItems tbl limit (effExclusiveStartKey lek) none).countP
        (fun it => (itemToLaunchResponse it).isSome) ∧
    (get_all_launches tbl limit lek).1.Perm
      ((scanItems tbl limit (effExclusiveStartKey lek) none).filterMap
        itemToLaunchResponse) ∧
    (get_launches_by_date_range tbl s e limit lek).1.length =
      (scanItems tbl limit (effExclusiveStartKey lek)
        (some (dateRangeFilterExpr s e))).countP
        (fun it => (itemToLaunchResponse it).isSome) ∧
    (filter_launches tbl f).1.length =
      (scanItems tbl (effLimit f) (effExclusiveStartKey f.last_evaluated_key)
        (combineExprs (buildFilterExpressions f))).countP
        (fun it => (itemToLaunchResponse it).isSome) := by
  refine ⟨?_, ?_, ?_, ?_⟩
  · simp only [get_all_launches, sortByDateDesc]
    rw [(perm_isortB _ _).length_eq]
    exact length_filterMap_eq_countP _ _
  · simp only [get_all_launches, sortByDateDesc]
    exact perm_isortB _ _
  · simp only [get_launches_by_date_range, sortByDateAsc]
    rw [(perm_isortB _ _).length_eq]
    exact length_filterMap_eq_countP _ _
  · simp only [filter_launches, sortByDateDesc]
    rw [(perm_isortB _ _).length_eq]
    exact length_filterMap_eq_countP _ _

/-- C4: the List and Filter operations return pages sorted
most-recent-first (descending launch timestamp), and the date-range
operation returns pages sorted earliest-first (ascending). -/
theorem c4_sort_directions :
    (∀ (tbl : List Item) (limit : Nat) (lek : Option String),
      List.Pairwise (fun a b => strLeB b.launch_date a.launch_date = true)
        (get_all_launches tbl limit lek).1) ∧
    (∀ (tbl : List Item) (f : LaunchFilter),
      List.Pairwise (fun a b => strLeB b.launch_date a.launch_date = true)
        (filter_launches tbl f).1) ∧
    (∀ (tbl : List Item) (s e : String) (limit : Nat) (lek : Option String),
      List.Pairwise (fun a b => strLeB a.launch_date b.launch_date = true)
        (get_launches_by_date_range tbl s e limit lek).1) := by
  refine ⟨?_, ?_, ?_⟩
  · intro tbl limit lek
    simp only [get_all_launches, sortByDateDesc]
    exact pairwise_isortB _ descLe_total
      (fun a b c h1 h2 => strLeB_trans h2 h1) _
  · intro tbl f
    simp only [filter_launches, sortByDateDesc]
    exact pairwise_isortB _ descLe_total
      (fun a b c h1 h2 => strLeB_trans h2 h1) _
  · intro tbl s e limit lek
    simp only [get_launches_by_date_range, sortByDateAsc]
    exact pairwise_isortB _ ascLe_total
      (fun a b c h1 h2 => strLeB_trans h1 h2) _

/-- C1 counterexample: a filter request with inverted flight-number bounds
(min 5 > max 3) is not rejected with `InvalidRange` — the endpoint answers
without a 400 and the store scan is attempted (scan-call count 1). -/
theorem c1_counterexample :
    isBadRequest (filter_launches_endpoint tbl3 fC1).1 = false ∧
    (filter_launches_endpoint tbl3 fC1).2 = 1 := by
  exact ⟨by decide, by decide⟩

/-- C1 as amended: only the date bounds are validated.  When both date
bounds are given with start ≥ end the Filter endpoint fails with
`InvalidRange` and no store query is attempted; inverted flight-number
bounds are not rejected — the scan is attempted with the unsatisfiable
`between` predicate, so the page is simply empty. -/
theorem c1_filter_invalid_range_amended (tbl : List Item) (f : LaunchFilter) :
    (∀ s e, f.start_date = some s → f.end_date = some e → strLeB e s = true →
      filter_launches_endpoint tbl f =
        (Except.error (ApiError.badRequest invalidRangeMsg), 0)) ∧
    (∀ m M, f.flight_number_min = some m → f.flight_number_max = some M →
      1 ≤ M → M < m →
      (match f.start_date, f.end_date with
       | some s, some e => strLeB e s
       | _, _ => false) = false →
      (filter_launches_endpoint tbl f).2 = 1 ∧ (filter_launches tbl f).1 = []) := by
  constructor
  · intro s e hs he hle
    unfold filter_launches_endpoint
    rw [hs, he]
    simp only [hle, if_pos]
  · intro m M hm hM hM1 hMm hdate
    have hmt : truthyOptInt f.flight_number_min = true := by
      rw [hm]; exact truthyOptInt_of_one_le (by omega)
    have hMt : truthyOptInt f.flight_number_max = true := by
      rw [hM]; exact truthyOptInt_of_one_le hM1
    have hflight : flightExprs f =
        [fun it => match it.flight_number with
                   | some n => decide (f.flight_number_min.getD 0 ≤ n) &&
                               decide (n ≤ f.flight_number_max.getD 0)
                   | none => false] := by
      unfold flightExprs
      rw [hmt, hMt]
      rfl
    have hexprfalse : ∀ it : Item,
        (match it.flight_number with
         | some n => decide (f.flight_number_min.getD 0 ≤ n) &&
                     decide (n ≤ f.flight_number_max.getD 0)
         | none => false) = false := by
      intro it
      cases hn : it.flight_number with
      | none => rfl
      | some n =>
        rw [hm, hM]
        simp only [Option.getD_some]
        by_cases hmn : m ≤ n
        · have hnM : ¬ n ≤ M := by omega
          simp [hmn, hnM]
        · simp [hmn]
    have hall : ∀ it : Item,
        applyFE (combineExprs (buildFilterExpressions f)) it = false := by
      intro it
      rw [applyFE_combineExprs]
      rw [Bool.eq_false_iff]
      intro hall
      rw [List.all_eq_true] at hall
      have hmem : (fun it : Item => match it.flight_number with
          | some n => decide (f.flight_number_min.getD 0 ≤ n) &&
                      decide (n ≤ f.flight_number_max.getD 0)
          | none => false) ∈ buildFilterExpressions f := by
        unfold buildFilterExpressions
        rw [hflight]
        simp
      have hcontra := hall _ hmem
      rw [hexprfalse it] at hcontra
      exact Bool.false_ne_true hcontra
    have hscan : scanItems tbl (effLimit f)
        (effExclusiveStartKey f.last_evaluated_key)
        (combineExprs (buildFilterExpressions f)) = [] := by
      unfold scanItems
      rw [List.filter_eq_nil_iff]
      intro it _
      rw [hall it]
      exact Bool.false_ne_true
    constructor
    · unfold filter_launches_endpoint
      rw [hdate]
      rfl
    · simp only [filter_launches, hscan]
      rfl

/-- Witness for the amended C1: the date part at an inverted date range, the
flight part at `fC1` (min 5 > max 3). -/
theorem c1_witness :
    filter_launches_endpoint tbl3 fC1d =
      (Except.error (ApiError.badRequest invalidRangeMsg), 0) ∧
    ((filter_launches_endpoint tbl3 fC1).2 = 1 ∧ (filter_launches tbl3 fC1).1 = []) :=
  ⟨(c1_filter_invalid_range_amended tbl3 fC1d).1 "2024-02-01T00:00:00"
      "2024-01-01T00:00:00" rfl rfl (by decide),
   (c1_filter_invalid_range_amended tbl3 fC1).2 5 3 rfl rfl (by decide)
      (by decide) (by decide)⟩

/-- Store invariant guaranteed by DynamoDB for a table keyed on
`launch_id`: every item carries a nonempty key, and keys are unique. -/
def tableWellKeyed (tbl : List Item) : Prop :=
  (∀ it ∈ tbl, it.launch_id ≠ none ∧ it.launch_id ≠ some "") ∧
  (tbl.filterMap (fun it => it.launch_id)).Nodup

instance (tbl : List Item) : Decidable (tableWellKeyed tbl) := by
  unfold tableWellKeyed
  infer_instance

/-- A scan that resumes at cursor `c` (the key of some stored item) never
returns an item carrying key `c`. -/
theorem scan_no_cursor_echo {tbl : List Item} (hW : tableWellKeyed tbl)
    {c : String} (hc : ∃ it ∈ tbl, it.launch_id = some c) (limit : Nat)
    (fe : Option (Item → Bool)) :
    ∀ it2 ∈ scanItems tbl limit (effExclusiveStartKey (some c)) fe,
      it2.launch_id ≠ some c := by
  obtain ⟨it, hit, hid⟩ := hc
  have hcne : ¬ (c == "") = true := by
    intro hceq
    rw [beq_iff_eq] at hceq
    exact (hW.1 it hit).2 (hceq ▸ hid)
  have hesk : effExclusiveStartKey (some c) = some c := by
    simp [effExclusiveStartKey, truthyOptStr, hcne]
  intro it2 hit2
  rw [hesk] at hit2
  have hex : it2 ∈ scanExamined tbl limit (some c) :=
    (List.mem_filter.1 hit2).1
  have hseg : it2 ∈ segmentAfter tbl (some c) :=
    (List.take_sublist _ _).subset hex
  exact mem_segmentAfter_ne tbl hW.2 it2 hseg

/-- C7: on a well-keyed table, a cursor emitted by a List or Filter call,
fed into the next call with the same filters, never re-returns a launch
whose identifier equals the cursor — the scan resumes strictly after that
record. -/
theorem c7_cursor_round_trip (tbl : List Item) (hW : tableWellKeyed tbl) :
    (∀ (limit : Nat) (lek : Option String) (limit2 : Nat) (c : String),
      (get_all_launches tbl limit lek).2.1 = some c →
      ∀ l ∈ (get_all_launches tbl limit2 (some c)).1, l.id ≠ c) ∧
    (∀ (f : LaunchFilter) (c : String),
      (filter_launches tbl f).2.1 = some c →
      ∀ l ∈ (filter_launches tbl { f with last_evaluated_key := some c }).1,
        l.id ≠ c) := by
  constructor
  · intro limit lek limit2 c hc l hl
    have hcmem : ∃ it ∈ tbl, it.launch_id = some c := by
      simp only [get_all_launches] at hc
      exact scanLastEvaluatedKey_mem hc
    simp only [get_all_launches, sortByDateDesc] at hl
    rw [mem_isortB] at hl
    obtain ⟨it2, hit2, hconv⟩ := List.mem_filterMap.1 hl
    have hne := scan_no_cursor_echo hW hcmem limit2 none it2 hit2
    intro hidc
    exact hne (hidc ▸ (itemToLaunch_fields hconv).1)
  · intro f c hc l hl
    have hcmem : ∃ it ∈ tbl, it.launch_id = some c := by
      simp only [filter_launches] at hc
      exact scanLastEvaluatedKey_mem hc
    simp only [filter_launches, sortByDateDesc] at hl
    rw [mem_isortB] at hl
    obtain ⟨it2, hit2, hconv⟩ := List.mem_filterMap.1 hl
    have hne := scan_no_cursor_echo hW hcmem _ _ it2 hit2
    intro hidc
    exact hne (hidc ▸ (itemToLaunch_fields hconv).1)

/-- Witness for C7: on `tbl3` with limit 2 the List call emits cursor "b",
and the follow-up call, which returns `launchC`, does not re-return the
record with identifier "b". -/
theorem c7_witness :
    (get_all_launches tbl3 2 none).2.1 = some "b" ∧ launchC.id ≠ "b" :=
  ⟨by decide,
   (c7_cursor_round_trip tbl3 (by decide)).1 2 none 5 "b" (by decide)
     launchC (by decide)⟩

/-- C8: the summary aggregation is safe on the empty set (success rate
exactly 0, empty top-rockets list, no division), computes the success rate
as `round(100 * successful / total, 2)` when the total is positive, and its
top-rockets list is the five-element prefix of the count table sorted
descending by launch count, stably: each rocket appears with its exact
launch count, rockets are listed in first-encounter order of the
timestamp-descending scan, and entries tied on count keep that order. -/
theorem c8_summary_aggregation (tbl : List Item) :
    ((get_launches_summary tbl).total_launches = 0 →
      (get_launches_summary tbl).success_rate = 0 ∧
      (get_launches_summary tbl).most_used_rockets = []) ∧
    (0 < (get_launches_summary tbl).total_launches →
      (get_launches_summary tbl).success_rate =
        pyRound2 ((100 * ((get_launches_summary tbl).successful_launches : ℚ)) /
          ((get_launches_summary tbl).total_launches : ℚ))) ∧
    List.Pairwise (fun a b : String × Nat => b.2 ≤ a.2)
      (get_launches_summary tbl).most_used_rockets ∧
    (get_launches_summary tbl).most_used_rockets.length ≤ 5 ∧
    (get_launches_summary tbl).most_used_rockets =
      (isortB countGe (rocketCounts (get_all_launches tbl 1000 none).1)).take 5 ∧
    rocketCounts (get_all_launches tbl 1000 none).1 =
      (newKeys [] ((get_all_launches tbl 1000 none).1.map (fun l => l.rocket_name))).map
        (fun k => (k, ((get_all_launches tbl 1000 none).1.map
          (fun l => l.rocket_name)).count k)) ∧
    (∀ p q : String × Nat,
      [p, q].Sublist (rocketCounts (get_all_launches tbl 1000 none).1) → q.2 ≤ p.2 →
      [p, q].Sublist (isortB countGe (rocketCounts (get_all_launches tbl 1000 none).1))) := by
  refine ⟨?_, ?_, ?_, ?_, rfl, rocketCounts_eq _, ?_⟩
  · intro h
    have hnil : (get_all_launches tbl 1000 none).1 = [] := List.length_eq_zero.1 h
    constructor
    · simp [get_launches_summary, hnil]
    · simp [get_launches_summary, hnil, rocketCounts, isortB]
  · intro h
    have h' : 0 < (get_all_launches tbl 1000 none).1.length := h
    simp only [get_launches_summary]
    rw [if_pos h']
    congr 1
    ring
  · have hp := pairwise_isortB countGe countGe_total countGe_trans
      (rocketCounts (get_all_launches tbl 1000 none).1)
    have hp' : List.Pairwise (fun a b : String × Nat => b.2 ≤ a.2)
        (isortB countGe (rocketCounts (get_all_launches tbl 1000 none).1)) :=
      hp.imp (fun h => by simpa [countGe] using h)
    exact List.Pairwise.sublist (List.take_sublist 5 _) hp'
  · exact List.length_take_le 5 _
  · intro p q hsub hle
    exact pair_sublist_isortB countGe p q (by simpa [countGe] using hle) _ hsub

/-- Witness for C8: a store with three launches, two successful. -/
theorem c8_witness :
    0 < (get_launches_summary tbl3).total_launches ∧
    (get_launches_summary tbl3).success_rate =
      pyRound2 ((100 * ((get_launches_summary tbl3).successful_launches : ℚ)) /
        ((get_launches_summary tbl3).total_launches : ℚ)) :=
  ⟨by decide, (c8_summary_aggregation tbl3).2.1 (by decide)⟩

/-- C3: every launch returned by the Filter operation satisfies all
predicates set in the request — case-sensitive substring containment for
mission/rocket/site, exact status equality, inclusive date-range and
flight-number-range membership (the one-sided inequality when only one
bound is set, hence each set bound holds independently), combined with
logical AND; unset fields impose no constraint (no conclusion is claimed
for them, and an empty substring is vacuously contained). -/
theorem c3_filter_predicate_soundness (tbl : List Item) (f : LaunchFilter)
    (hf : validLaunchFilter f = true) (l : LaunchResponse)
    (hl : l ∈ (filter_launches tbl f).1) :
    (∀ s, f.mission_name = some s → strContains l.mission_name s = true) ∧
    (∀ s, f.rocket_name = some s → strContains l.rocket_name s = true) ∧
    (∀ st, f.status = some st → l.status = st) ∧
    (∀ s, f.launch_site = some s → s ≠ "" →
      ∃ site, l.launch_site = some site ∧ strContains site s = true) ∧
    (∀ sd, f.start_date = some sd → strLeB sd l.launch_date = true) ∧
    (∀ ed, f.end_date = some ed → strLeB l.launch_date ed = true) ∧
    (∀ m, f.flight_number_min = some m → ∃ n, l.flight_number = some n ∧ m ≤ n) ∧
    (∀ M, f.flight_number_max = some M → ∃ n, l.flight_number = some n ∧ n ≤ M) := by
  simp only [filter_launches, sortByDateDesc] at hl
  rw [mem_isortB] at hl
  obtain ⟨it, hit, hconv⟩ := List.mem_filterMap.1 hl
  obtain ⟨hex, hpred⟩ := List.mem_filter.1 hit
  rw [applyFE_combineExprs] at hpred
  simp only [buildFilterExpressions, List.all_append, Bool.and_eq_true] at hpred
  obtain ⟨⟨⟨⟨⟨hA, hB⟩, hC⟩, hD⟩, hE⟩, hF⟩ := hpred
  obtain ⟨hid, hmn, hrn, hld, ⟨raw, hraw, hofs⟩, hdet, hfn, hsitef⟩ :=
    itemToLaunch_fields hconv
  refine ⟨?_, ?_, ?_, ?_, ?_, ?_, ?_, ?_⟩
  · intro s hs
    by_cases hse : s = ""
    · rw [hse]
      exact strContains_empty _
    · simp only [missionExprs, hs] at hA
      rw [if_pos hse] at hA
      simp only [List.all_cons, List.all_nil, Bool.and_true] at hA
      rw [hmn] at hA
      exact hA
  · intro s hs
    by_cases hse : s = ""
    · rw [hse]
      exact strContains_empty _
    · simp only [rocketExprs, hs] at hB
      rw [if_pos hse] at hB
      simp only [List.all_cons, List.all_nil, Bool.and_true] at hB
      rw [hrn] at hB
      exact hB
  · intro st hst
    simp only [statusExprs, hst, List.all_cons, List.all_nil, Bool.and_true,
      decide_eq_true_eq] at hC
    rw [hraw] at hC
    have hraweq : raw = st.value := Option.some.inj hC
    rw [hraweq, LaunchStatus.ofString_value] at hofs
    exact (Option.some.inj hofs).symm
  · intro s hs hse
    simp only [siteExprs, hs] at hD
    rw [if_pos hse] at hD
    simp only [List.all_cons, List.all_nil, Bool.and_true] at hD
    cases hv : it.launch_site with
    | none =>
      rw [hv] at hD
      exact absurd hD (by simp)
    | some v =>
      rw [hv] at hD
      exact ⟨v, by rw [hsitef, hv], hD⟩
  · intro sd hsd
    cases hed : f.end_date with
    | some ed =>
      simp only [dateExprs, hsd, hed, List.all_cons, List.all_nil, Bool.and_true] at hE
      rw [hld, Bool.and_eq_true] at hE
      exact hE.1
    | none =>
      simp only [dateExprs, hsd, hed, List.all_cons, List.all_nil, Bool.and_true] at hE
      rw [hld] at hE
      exact hE
  · intro ed hed
    cases hsd : f.start_date with
    | some sd =>
      simp only [dateExprs, hsd, hed, List.all_cons, List.all_nil, Bool.and_true] at hE
      rw [hld, Bool.and_eq_true] at hE
      exact hE.2
    | none =>
      simp only [dateExprs, hsd, hed, List.all_cons, List.all_nil, Bool.and_true] at hE
      rw [hld] at hE
      exact hE
  · intro m hm
    have hmt : truthyOptInt f.flight_number_min = true := by
      rw [hm]
      exact truthyOptInt_of_one_le (validLaunchFilter_min hf hm)
    cases hMt : truthyOptInt f.flight_number_max with
    | true =>
      have hfl : flightExprs f =
          [fun it => match it.flight_number with
                     | some n => decide (f.flight_number_min.getD 0 ≤ n) &&
                                 decide (n ≤ f.flight_number_max.getD 0)
                     | none => false] := by
        unfold flightExprs
        rw [hmt, hMt]
        rfl
      rw [hfl] at hF
      simp only [List.all_cons, List.all_nil, Bool.and_true] at hF
      cases hn : it.flight_number with
      | none =>
        rw [hn] at hF
        exact absurd hF (by simp)
      | some n =>
        rw [hn] at hF
        rw [hm, Option.getD_some, Bool.and_eq_true, decide_eq_true_eq] at hF
        exact ⟨n, by rw [hfn, hn], hF.1⟩
    | false =>
      have hfl : flightExprs f =
          [fun it => match it.flight_number with
                     | some n => decide (f.flight_number_min.getD 0 ≤ n)
                     | none => false] := by
        unfold flightExprs
        rw [hmt, hMt]
        rfl
      rw [hfl] at hF
      simp only [List.all_cons, List.all_nil, Bool.and_true] at hF
      cases hn : it.flight_number with
      | none =>
        rw [hn] at hF
        exact absurd hF (by simp)
      | some n =>
        rw [hn] at hF
        rw [hm, Option.getD_some, decide_eq_true_eq] at hF
        exact ⟨n, by rw [hfn, hn], hF⟩
  · intro M hM
    have hMt : truthyOptInt f.flight_number_max = true := by
      rw [hM]
      exact truthyOptInt_of_one_le (validLaunchFilter_max hf hM)
    cases hmt : truthyOptInt f.flight_number_min with
    | true =>
      have hfl : flightExprs f =
          [fun it => match it.flight_number with
                     | some n => decide (f.flight_number_min.getD 0 ≤ n) &&
                                 decide (n ≤ f.flight_number_max.getD 0)
                     | none => false] := by
        unfold flightExprs
        rw [hmt, hMt]
        rfl
      rw [hfl] at hF
      simp only [List.all_cons, List.all_nil, Bool.and_true] at hF
      cases hn : it.flight_number with
      | none =>
        rw [hn] at hF
        exact absurd hF (by simp)
      | some n =>
        rw [hn] at hF
        rw [hM, Option.getD_some] at hF
        simp only [Bool.and_eq_true, decide_eq_true_eq] at hF
        exact ⟨n, by rw [hfn, hn], hF.2⟩
    | false =>
      have hfl : flightExprs f =
          [fun it => match it.flight_number with
                     | some n => decide (n ≤ f.flight_number_max.getD 0)
                     | none => false] := by
        unfold flightExprs
        rw [hmt, hMt]
        rfl
      rw [hfl] at hF
      simp only [List.all_cons, List.all_nil, Bool.and_true] at hF
      cases hn : it.flight_number with
      | none =>
        rw [hn] at hF
        exact absurd hF (by simp)
      | some n =>
        rw [hn] at hF
        rw [hM, Option.getD_some, decide_eq_true_eq] at hF
        exact ⟨n, by rw [hfn, hn], hF⟩

/-- Witness for C3: a fully-constrained filter request matching `itemA`,
whose normalized launch satisfies every predicate. -/
theorem c3_witness :
    strContains launchA.mission_name "Star" = true ∧
    strContains launchA.rocket_name "Falcon" = true ∧
    launchA.status = LaunchStatus.success ∧
    (∃ site, launchA.launch_site = some site ∧ strContains site "SLC" = true) ∧
    strLeB "2020-01-01T00:00:00" launchA.launch_date = true ∧
    strLeB launchA.launch_date "2021-01-01T00:00:00" = true ∧
    (∃ n, launchA.flight_number = some n ∧ 10 ≤ n) ∧
    (∃ n, launchA.flight_number = some n ∧ n ≤ 100) := by
  have h := c3_filter_predicate_soundness [itemA] fC3 (by decide) launchA (by decide)
  exact ⟨h.1 "Star" rfl, h.2.1 "Falcon" rfl, h.2.2.1 LaunchStatus.success rfl,
    h.2.2.2.1 "SLC" rfl (by decide), h.2.2.2.2.1 _ rfl, h.2.2.2.2.2.1 _ rfl,
    h.2.2.2.2.2.2.1 10 rfl, h.2.2.2.2.2.2.2 100 rfl⟩
